import Mathlib

/-!
Verification development for the PiUpdi Manager firmware
(`src/Manager/AppUpload/main.c` and `src/Manager/lib/twi.c`).

The definitions below are a shallow embedding of the firmware's data model:

* the TWI0 master transaction engine of `twi.c` (state flags, completion
  interrupt, the bounded blocking wait `twim_waitUS`);
* the TWI slave interrupt state machines of `twi.c` for both buses, with the
  application-supplied callbacks `twisCallback` / `twi1sCallback` of `main.c`
  and all the buffers and flags they mutate;
* the main-loop polling logic of `main.c` (diagnostic monitor and the
  Relay Record / mode-switch handler).

Machine bytes are modeled as `Nat` (values are only ever stored and compared,
never overflowed by the code under study); the fixed 32-byte arrays are
modeled as total functions `Nat → Nat` together with a separate length
variable, exactly mirroring the C globals, plus an `oob` tracking flag that
records whether any store ever targeted an index past the end of a 32-byte
array (set by the model at each primitive store/copy).
-/

/-! ### Shared byte-buffer primitives -/

/-- Capacity of every staging buffer (`#define BUFF_SIZE 32` in `main.c`). -/
def BUFF_SIZE : Nat := 32

/-- `main.c`: host-facing slave address constant (`fromHost_addr = 42`). -/
def fromHost_addr : Nat := 42

/-- `main.c`: application-facing slave address constant (`fromApp_addr = 41`). -/
def fromApp_addr : Nat := 41

/-- `main.c`: `#define LAST_OP_A 0` (last operation was the address phase). -/
def LAST_OP_A : Nat := 0

/-- `main.c`: `#define LAST_OP_R 1` (last operation was a master read). -/
def LAST_OP_R : Nat := 1

/-- `main.c`: `#define LAST_OP_W 2` (last operation was a master write). -/
def LAST_OP_W : Nat := 2

/-- `main.c`: `#define BLINK_DELAY 1000UL`. -/
def BLINK_DELAY : Nat := 1000

/-- A single array store `buf[i] = v` on a C byte array. -/
def bufStore (b : Nat → Nat) (i v : Nat) : Nat → Nat :=
  fun j => if j = i then v else b j

/-- The copy loop `for(i = 0; i < n; ++i) dst[i] = src[i]`. -/
def copyInto (src dst : Nat → Nat) (n : Nat) : Nat → Nat :=
  fun j => if j < n then src j else dst j

/-! ### Master transaction engine (`twi.c`, TWI0 master half)

Status-register bit constants from the `twi.c` enums
(`MSTATUS RIF7|WIF6|CLKHOLD5|RXACK4|ARBLOST3|BUSERR2|BUSSTATE1:0`). -/

def RIF : Nat := 0x80
def WIF : Nat := 0x40
def CLKHOLD : Nat := 0x20
def RXNACK : Nat := 0x10
def ARBLOST : Nat := 0x8
def BUSERR : Nat := 0x4
/-- `twi.c`: `ANYERR = ARBLOST|BUSERR` (the error bits). -/
def ANYERR : Nat := ARBLOST ||| BUSERR
/-- `twi.c`: bus-state value `OWNER = 2`. -/
def OWNER : Nat := 2
/-- `twi.c`: `READOK = RIF|CLKHOLD|OWNER` (read-ready status pattern). -/
def READOK : Nat := RIF ||| CLKHOLD ||| OWNER
/-- `twi.c`: `WRITEOK = WIF|CLKHOLD|OWNER` (write-acknowledged pattern). -/
def WRITEOK : Nat := WIF ||| CLKHOLD ||| OWNER

/-- State of the TWI0 master engine (`twi.c` statics).  `irqOn` models the
RIEN/WIEN bits of `MCTRLA` (set by `m_irqAllOn`, cleared by `m_irqAllOff`;
`m_isBusy` reads exactly these bits).  `lastResult` is `twi_lastResult_`.
The buffer pointers `txbuf_`/`txbuf2_` are modeled as the list of bytes still
to be sent; `rxRemaining` is `rxbufEnd_ - rxbuf_`, `rxNull` is whether
`rxbuf_` is the null pointer, and `rxReceived` collects the bytes stored by
the read phase. -/
structure MState where
  irqOn : Bool
  lastResult : Bool
  tx1 : List Nat
  tx2 : List Nat
  rxRemaining : Nat
  rxNull : Bool
  rxReceived : List Nat
deriving DecidableEq

/-- Hardware side effects the master interrupt performs, in program order:
`m_NACKstop`, `m_irqAllOff`, invoking `twim_isrCallback_`, `m_ACKread`,
`m_startRead`, and `m_write(b)`. -/
inductive MAction where
  | nackStop
  | irqOff
  | userCallback
  | ackRead
  | startRead
  | writeData (b : Nat)
deriving DecidableEq

/-- `twi.c` `m_finished(tf)`: record the result, issue NACK+STOP, disable the
completion interrupt, then invoke the user callback (in that order). -/
def m_finished (tf : Bool) (st : MState) : MState × List MAction :=
  ({ st with lastResult := tf, irqOn := false },
   [MAction.nackStop, MAction.irqOff, MAction.userCallback])

/-- `twi.c` `ISR(TWI0_TWIM_vect)`: one completion-interrupt invocation, given
the status snapshot `s` and (for the read path) the byte `dataIn` sitting in
`MDATA`. -/
def twim_isr (s dataIn : Nat) (st : MState) : MState × List MAction :=
  if s &&& ANYERR ≠ 0 then m_finished false st
  else if s = READOK then
    -- *rxbuf_++ = m_read(); rxbuf_ < rxbufEnd_ ? m_ACKread() : m_finished(true)
    let r := st.rxRemaining
    let st1 := { st with rxReceived := st.rxReceived ++ [dataIn], rxRemaining := r - 1 }
    if 1 < r then (st1, [MAction.ackRead]) else m_finished true st1
  else if s = WRITEOK then
    match st.tx1 with
    | b :: rest => ({ st with tx1 := rest }, [MAction.writeData b])
    | [] =>
      match st.tx2 with
      | b :: rest => ({ st with tx2 := rest }, [MAction.writeData b])
      | [] =>
        if st.rxNull then m_finished true st
        else (st, [MAction.startRead])
  else m_finished false st

/-- `twi.c` `m_startIrq`: state effect of starting a transaction — the result
flag is initialized to `false` and the completion interrupt is enabled (the
`MADDR` direction-bit manipulation of `m_startRead`/`m_startWrite` is bus
addressing with no engine-state content and is not modeled). -/
def m_startIrq (st : MState) : MState :=
  { st with lastResult := false, irqOn := true }

/-- State part of `m_finished` (used when only the engine state matters). -/
def m_finishedSt (tf : Bool) (st : MState) : MState :=
  (m_finished tf st).1

/-- `twi.c` `twim_isBusy`: `MCTRLA & RWIEN`, i.e. the interrupt-enable bits. -/
def twim_isBusy (st : MState) : Bool := st.irqOn

/-- `twi.c` `twim_lastResultOK`. -/
def twim_lastResultOK (st : MState) : Bool := st.lastResult

/-- One 1-microsecond step of the `twim_waitUS` busy-wait.  While the
completion interrupt is enabled the hardware may finish the transaction
during the delay (`intr = some tf` runs `m_finished tf`); once the interrupt
is disabled no completion can fire. -/
def waitTick (intr : Option Bool) (st : MState) : MState :=
  if st.irqOn then
    match intr with
    | some tf => m_finishedSt tf st
    | none => st
  else st

/-- Iterate `waitTick` for `n` microseconds, reading the interrupt
environment `env` at successive instants starting from `t`. -/
def waitLoop (env : Nat → Option Bool) : Nat → Nat → MState → MState
  | _, 0, st => st
  | t, n + 1, st => waitLoop env (t + 1) n (waitTick (env t) st)

/-- `twi.c` `twim_waitUS(us)`:
`while( _delay_us(1), --us && twim_isBusy() ){} return twim_lastResultOK();`.
`us` is a `uint16_t`, so the pre-decrement of `0` wraps to `0xFFFF` and the
loop then counts 65536 delay steps.  Once `twim_isBusy()` is false,
`waitTick` is the identity, so running the remaining iterations of the
countdown leaves the state and the returned value exactly as the C early
exit does. -/
def twim_waitUS (env : Nat → Option Bool) (us : Nat) (st : MState) : Bool × MState :=
  let iters := if us % 65536 = 0 then 65536 else us % 65536
  let st1 := waitLoop env 0 iters st
  (twim_lastResultOK st1, st1)

/-! Helper lemmas about the busy-wait loop. -/

theorem waitLoop_of_none (env : Nat → Option Bool) (henv : ∀ t, env t = none) :
    ∀ n t st, waitLoop env t n st = st := by
  intro n
  induction n with
  | zero => intro t st; rfl
  | succ k ih =>
      intro t st
      have htick : waitTick (env t) st = st := by
        rw [henv t]
        unfold waitTick
        cases h : st.irqOn <;> simp
      rw [waitLoop, htick, ih]

theorem waitLoop_of_notBusy (env : Nat → Option Bool) :
    ∀ n t st, st.irqOn = false → waitLoop env t n st = st := by
  intro n
  induction n with
  | zero => intro t st _; rfl
  | succ k ih =>
      intro t st h
      have htick : waitTick (env t) st = st := by
        unfold waitTick
        rw [h]
        simp
      rw [waitLoop, htick, ih (t + 1) st h]

/-- Claim C6: a `waitUS` call against a transaction that never completes
(the completion interrupt never fires) returns `false` — the result flag is
initialized to `false` by `m_startIrq` and never set — and leaves `isBusy()`
true; a `waitUS` call against a transaction the hardware has reported failed
(`m_finished(false)`, e.g. a NACK) returns `false` and leaves `isBusy()`
false, so only the busy flag disambiguates timeout from reported failure. -/
theorem C6_waitUS_timeout_vs_failure (env : Nat → Option Bool) (us : Nat) (st0 : MState) :
    ((∀ t, env t = none) →
      (twim_waitUS env us (m_startIrq st0)).1 = false ∧
      twim_isBusy (twim_waitUS env us (m_startIrq st0)).2 = true) ∧
    ((twim_waitUS env us (m_finishedSt false st0)).1 = false ∧
      twim_isBusy (twim_waitUS env us (m_finishedSt false st0)).2 = false) := by
  constructor
  · intro henv
    simp only [twim_waitUS]
    rw [waitLoop_of_none env henv]
    simp [twim_lastResultOK, twim_isBusy, m_startIrq]
  · have hbusy : (m_finishedSt false st0).irqOn = false := by
      simp [m_finishedSt, m_finished]
    simp only [twim_waitUS]
    rw [waitLoop_of_notBusy env _ _ _ hbusy]
    constructor
    · simp [twim_lastResultOK, m_finishedSt, m_finished]
    · simpa [twim_isBusy] using hbusy

theorem C6_waitUS_timeout_vs_failure_witness :
    ((twim_waitUS (fun _ => none) 3 (m_startIrq ⟨false, false, [], [], 0, true, []⟩)).1 = false ∧
      twim_isBusy (twim_waitUS (fun _ => none) 3 (m_startIrq ⟨false, false, [], [], 0, true, []⟩)).2 = true) ∧
    ((twim_waitUS (fun _ => none) 3 (m_finishedSt false ⟨false, false, [], [], 0, true, []⟩)).1 = false ∧
      twim_isBusy (twim_waitUS (fun _ => none) 3 (m_finishedSt false ⟨false, false, [], [], 0, true, []⟩)).2 = false) :=
  ⟨(C6_waitUS_timeout_vs_failure (fun _ => none) 3 ⟨false, false, [], [], 0, true, []⟩).1 (fun _ => rfl),
   (C6_waitUS_timeout_vs_failure (fun _ => none) 3 ⟨false, false, [], [], 0, true, []⟩).2⟩

/-- Claim C7: in the master completion interrupt, any status snapshot with an
error bit set (`ARBLOST`/`BUSERR`), and any status not recognized as the
read-ready (`READOK`) or write-acknowledged (`WRITEOK`) pattern, finishes the
transaction with result = failure; and in every finishing case (whenever the
user completion callback is invoked) the engine issues NACK+STOP and
disables the completion interrupt before that callback. -/
theorem C7_master_isr_fail_closed (s dataIn : Nat) (st : MState) :
    ((s &&& ANYERR ≠ 0 ∨ (s ≠ READOK ∧ s ≠ WRITEOK)) →
      (twim_isr s dataIn st).1.lastResult = false ∧
      (twim_isr s dataIn st).1.irqOn = false ∧
      (twim_isr s dataIn st).2 = [MAction.nackStop, MAction.irqOff, MAction.userCallback]) ∧
    (MAction.userCallback ∈ (twim_isr s dataIn st).2 →
      (twim_isr s dataIn st).2 = [MAction.nackStop, MAction.irqOff, MAction.userCallback]) := by
  constructor
  · intro h
    unfold twim_isr
    rcases h with h | ⟨h2, h3⟩
    · simp [h, m_finished]
    · by_cases h1 : s &&& ANYERR ≠ 0
      · simp [h1, m_finished]
      · simp [h1, h2, h3, m_finished]
  · intro hmem
    have eA : READOK &&& ANYERR = 0 := by decide
    have eB : WRITEOK &&& ANYERR = 0 := by decide
    have eC : ¬(WRITEOK = READOK) := by decide
    unfold twim_isr at hmem ⊢
    by_cases h1 : s &&& ANYERR ≠ 0
    · simp [h1, m_finished]
    · by_cases h2 : s = READOK
      · by_cases h3 : 1 < st.rxRemaining
        · exfalso
          simp [h1, h2, h3, eA] at hmem
        · simp [h1, h2, h3, eA, m_finished]
      · by_cases h4 : s = WRITEOK
        · cases htx : st.tx1 with
          | cons b rest =>
              exfalso
              simp [h1, h2, h4, htx, eB, eC] at hmem
          | nil =>
              cases htx2 : st.tx2 with
              | cons b rest =>
                  exfalso
                  simp [h1, h2, h4, htx, htx2, eB, eC] at hmem
              | nil =>
                  by_cases h5 : st.rxNull
                  · simp [h1, h2, h4, htx, htx2, h5, eB, eC, m_finished]
                  · exfalso
                    simp [h1, h2, h4, htx, htx2, h5, eB, eC] at hmem
        · simp [h1, h2, h4, m_finished]

theorem C7_master_isr_fail_closed_witness :
    (twim_isr 0x72 0 ⟨true, false, [], [], 0, true, []⟩).1.lastResult = false ∧
    (twim_isr 0x72 0 ⟨true, false, [], [], 0, true, []⟩).1.irqOn = false ∧
    (twim_isr 0x72 0 ⟨true, false, [], [], 0, true, []⟩).2 =
      [MAction.nackStop, MAction.irqOff, MAction.userCallback] :=
  (C7_master_isr_fail_closed 0x72 0 ⟨true, false, [], [], 0, true, []⟩).1
    (Or.inr ⟨by decide, by decide⟩)

/-! ### Slave state machines and the Manager callbacks (`main.c`, `twi.c`)

The five slave interrupt states of `twis_irqstate_t`. -/

inductive Twis_irqstate where
  | addressed
  | mread
  | mwrite
  | stopped
  | busError
deriving DecidableEq

/-- The data registers and last-matched-address cells of the two slave
engines (`TWI0.SDATA`, `TWI1.SDATA`, `s_lastAddress_`, `s1_lastAddress_`),
plus a log of every byte the firmware writes into each data register (the
bytes offered to the external master on reads). -/
structure Regs where
  sdata0 : Nat
  sdata1 : Nat
  lastAddress0 : Nat
  lastAddress1 : Nat
  log0 : List Nat
  log1 : List Nat

/-- `twi.c` `twis_write` — writes the **TWI0** slave data register. -/
def twis_write (v : Nat) (r : Regs) : Regs :=
  { r with sdata0 := v, log0 := r.log0 ++ [v] }

/-- `twi.c` `twi1s_write` — writes the **TWI1** slave data register. -/
def twi1s_write (v : Nat) (r : Regs) : Regs :=
  { r with sdata1 := v, log1 := r.log1 ++ [v] }

/-- `twi.c` `twis_read` — reads the **TWI0** slave data register. -/
def twis_read (r : Regs) : Nat := r.sdata0

/-- `twi.c` `twi1s_read` — reads the **TWI1** slave data register. -/
def twi1s_read (r : Regs) : Nat := r.sdata1

/-- `twi.c` `twis_lastAddress` — TWI0's last matched address. -/
def twis_lastAddress (r : Regs) : Nat := r.lastAddress0

/-- `twi.c` `twi1s_lastAddress` — TWI1's last matched address. -/
def twi1s_lastAddress (r : Regs) : Nat := r.lastAddress1

/-- All `main.c` globals touched by the two slave callbacks.  Buffers are the
32-byte arrays `BufferA`..`BufferE` and the print buffers; each is paired
with its C length/index variable.  `oob` records whether any store ever
targeted an index `≥ BUFF_SIZE` of one of these arrays (the model sets it at
each primitive store or copy loop). -/
structure AppState where
  twi0RxBuf : Nat → Nat
  twi0RxLen : Nat
  twi0TxBuf : Nat → Nat
  twi0TxLen : Nat
  twi0TxIdx : Nat
  printOp1Buf : Nat → Nat
  printOp1Len : Nat
  printOp1Idx : Nat
  printOp1rw : Nat
  printOp2Buf : Nat → Nat
  printOp2Len : Nat
  printOp2Idx : Nat
  printOp2rw : Nat
  printSlaveAddr : Nat
  printing : Bool
  got_twi0 : Bool
  gotTwi0Buf : Nat → Nat
  gotTwi0Len : Nat
  gotTwi0Idx : Nat
  twi0LastOp : Nat
  twi0StatusCpy : Nat
  twi1RxBuf : Nat → Nat
  twi1RxLen : Nat
  twi1TxBuf : Nat → Nat
  twi1TxLen : Nat
  twi1TxIdx : Nat
  twi1LastOp : Nat
  twi1StatusCpy : Nat
  got_twi1 : Bool
  oob : Bool

/-- `main.c` `print_Op1_buf_if_possible(rw, buf, bufsize, lastAddress)`. -/
def print_Op1_buf_if_possible (rw : Nat) (buf : Nat → Nat) (bufsize lastAddress : Nat)
    (s : AppState) : Bool × AppState :=
  let ret := s.printing
  if ret then
    (ret, { s with
      printOp1Len := bufsize
      printOp1Idx := 0
      printOp1Buf := copyInto buf s.printOp1Buf bufsize
      oob := s.oob || decide (BUFF_SIZE < bufsize)
      printOp1rw := rw
      printSlaveAddr := lastAddress })
  else (ret, s)

/-- `main.c` `print_Op2_buf_if_possible(rw, buf, bufsize, lastAddress)`:
fills the second diagnostic slot, then discards the whole diagnostic record
(both slot lengths zeroed, `printing` cleared) if the second op's target
address differs from the first op's recorded `print_slave_addr`. -/
def print_Op2_buf_if_possible (rw : Nat) (buf : Nat → Nat) (bufsize lastAddress : Nat)
    (s : AppState) : Bool × AppState :=
  let ret := s.printing
  if ret then
    let s1 := { s with
      printOp2Len := bufsize
      printOp2Idx := 0
      printOp2Buf := copyInto buf s.printOp2Buf bufsize
      oob := s.oob || decide (BUFF_SIZE < bufsize)
      printOp2rw := rw }
    if s1.printSlaveAddr ≠ lastAddress then
      (false, { s1 with printOp2Len := 0, printOp1Len := 0, printing := false })
    else (true, s1)
  else (ret, s)

/-- The `printing = (printOp1BufferIndex >= printOp1BufferLength) &&
(printOp2BufferIndex >= printOp2BufferLength) && uart1_availableForWrite()`
assignment that precedes each first-slot queueing in `main.c`. -/
def printingGate (uartAvail : Bool) (s : AppState) : Bool :=
  decide (s.printOp1Len ≤ s.printOp1Idx) && decide (s.printOp2Len ≤ s.printOp2Idx) && uartAvail

/-- `main.c` `twisCallback` (host-facing bus, TWI0): the slave-event decision
callback.  `uartAvail` is the value `uart1_availableForWrite()` would return
during this invocation.  Returns the callback's boolean answer together with
the updated globals and registers. -/
def twisCallback (uartAvail : Bool) (state : Twis_irqstate) (statusReg : Nat)
    (s : AppState) (r : Regs) : Bool × AppState × Regs :=
  match state with
  | .addressed =>
      let ret := decide (twis_lastAddress r = fromHost_addr)
      let s := { s with twi0StatusCpy := statusReg }
      let s :=
        if s.twi0RxLen ≠ 0 then
          let s := { s with printing := printingGate uartAvail s }
          let s := (print_Op1_buf_if_possible s.twi0LastOp s.twi0RxBuf s.twi0RxLen
            (twis_lastAddress r) s).2
          -- move_buffer(twi0RxBuffer, &twi0RxBufferLength,
          --             twi0TxBuffer, &twi0TxBufferLength, &twi0TxBufferIndex)
          { s with
            twi0TxBuf := copyInto s.twi0RxBuf s.twi0TxBuf s.twi0RxLen
            oob := s.oob || decide (BUFF_SIZE < s.twi0RxLen)
            twi0TxLen := s.twi0RxLen
            twi0RxLen := 0
            twi0TxIdx := 0 }
        else s
      (ret, { s with twi0LastOp := LAST_OP_A }, r)
  | .mread =>
      if s.twi0TxIdx < s.twi0TxLen then
        let r := twis_write (s.twi0TxBuf s.twi0TxIdx) r
        (true, { s with twi0TxIdx := s.twi0TxIdx + 1, twi0LastOp := LAST_OP_R }, r)
      else
        (true, { s with twi0LastOp := LAST_OP_R }, r)
  | .mwrite =>
      let s := { s with
        twi0RxBuf := bufStore s.twi0RxBuf s.twi0RxLen (twis_read r)
        oob := s.oob || decide (BUFF_SIZE ≤ s.twi0RxLen) }
      let s := { s with twi0RxLen := s.twi0RxLen + 1 }
      (decide (s.twi0RxLen < BUFF_SIZE), { s with twi0LastOp := LAST_OP_W }, r)
  | .stopped =>
      let s :=
        if s.twi0TxLen ≠ 0 then
          if s.twi0RxLen ≠ 0 then -- write+write
            (print_Op2_buf_if_possible s.twi0LastOp s.twi0RxBuf s.twi0RxLen
              (twis_lastAddress r) s).2
          else -- write+read
            let s := (print_Op2_buf_if_possible s.twi0LastOp s.twi0TxBuf s.twi0TxLen
              (twis_lastAddress r) s).2
            -- move_buffer(twi0TxBuffer, &twi0TxBufferLength,
            --             got_twi0_buf, &got_twi0BufferLength, &got_twi0BufferIndex)
            let s := { s with
              gotTwi0Buf := copyInto s.twi0TxBuf s.gotTwi0Buf s.twi0TxLen
              oob := s.oob || decide (BUFF_SIZE < s.twi0TxLen)
              gotTwi0Len := s.twi0TxLen
              twi0TxLen := 0
              gotTwi0Idx := 0 }
            { s with got_twi0 := true }
        else if s.twi0RxLen ≠ 0 then -- stop after plain write
          let s := { s with printing := printingGate uartAvail s }
          (print_Op1_buf_if_possible s.twi0LastOp s.twi0RxBuf s.twi0RxLen
            (twis_lastAddress r) s).2
        else if s.twi0LastOp = LAST_OP_A then -- a ping: print immediately
          { s with printing := printingGate uartAvail s }
        else s
      (true, { s with twi0TxLen := 0, twi0RxLen := 0 }, r)
  | .busError => (false, s, r)

/-- `main.c` `twi1sCallback` (application-facing bus, TWI1).  Note: exactly
as in the source, the `MREAD` branch calls `twis_write`, the `MWRITE` branch
calls `twis_read`, and the `STOPPED` branches pass `twis_lastAddress()` —
all TWI0 (host-bus) primitives — while only the `ADDRESSED` branch uses
`twi1s_lastAddress()`. -/
def twi1sCallback (uartAvail : Bool) (state : Twis_irqstate) (statusReg : Nat)
    (s : AppState) (r : Regs) : Bool × AppState × Regs :=
  match state with
  | .addressed =>
      let ret := decide (twi1s_lastAddress r = fromApp_addr)
      let s := { s with twi1StatusCpy := statusReg }
      let s :=
        if s.twi1RxLen ≠ 0 then
          let s := { s with printing := printingGate uartAvail s }
          let s := (print_Op1_buf_if_possible s.twi1LastOp s.twi1RxBuf s.twi1RxLen
            (twi1s_lastAddress r) s).2
          { s with
            twi1TxBuf := copyInto s.twi1RxBuf s.twi1TxBuf s.twi1RxLen
            oob := s.oob || decide (BUFF_SIZE < s.twi1RxLen)
            twi1TxLen := s.twi1RxLen
            twi1RxLen := 0
            twi1TxIdx := 0 }
        else s
      (ret, { s with twi1LastOp := LAST_OP_A }, r)
  | .mread =>
      if s.twi1TxIdx < s.twi1TxLen then
        let r := twis_write (s.twi1TxBuf s.twi1TxIdx) r -- source calls twis_write here
        (true, { s with twi1TxIdx := s.twi1TxIdx + 1, twi1LastOp := LAST_OP_R }, r)
      else
        (true, { s with twi1LastOp := LAST_OP_R }, r)
  | .mwrite =>
      let s := { s with
        twi1RxBuf := bufStore s.twi1RxBuf s.twi1RxLen (twis_read r) -- source calls twis_read
        oob := s.oob || decide (BUFF_SIZE ≤ s.twi1RxLen) }
      let s := { s with twi1RxLen := s.twi1RxLen + 1 }
      (decide (s.twi1RxLen < BUFF_SIZE), { s with twi1LastOp := LAST_OP_W }, r)
  | .stopped =>
      let s :=
        if s.twi1TxLen ≠ 0 then
          if s.twi1RxLen ≠ 0 then -- write+write
            (print_Op2_buf_if_possible s.twi1LastOp s.twi1RxBuf s.twi1RxLen
              (twis_lastAddress r) s).2 -- source passes twis_lastAddress()
          else -- write+read (no Relay Record on this bus)
            (print_Op2_buf_if_possible s.twi1LastOp s.twi1TxBuf s.twi1TxLen
              (twis_lastAddress r) s).2 -- source passes twis_lastAddress()
        else if s.twi1RxLen ≠ 0 then
          let s := { s with printing := printingGate uartAvail s }
          (print_Op1_buf_if_possible s.twi1LastOp s.twi1RxBuf s.twi1RxLen
            (twis_lastAddress r) s).2 -- source passes twis_lastAddress()
        else if s.twi1LastOp = LAST_OP_A then
          { s with printing := printingGate uartAvail s }
        else s
      (true, { s with twi1TxLen := 0, twi1RxLen := 0 }, r)
  | .busError => (false, s, r)

/-! ### Initial values (C statics are zero-initialized; `setup()` clears the
`got_*` flags again before the main loop). -/

def zeroBuf : Nat → Nat := fun _ => 0

def initApp : AppState :=
  ⟨zeroBuf, 0, zeroBuf, 0, 0,
   zeroBuf, 0, 0, 0, zeroBuf, 0, 0, 0, 0, false,
   false, zeroBuf, 0, 0, 0, 0,
   zeroBuf, 0, zeroBuf, 0, 0, 0, 0, false, false⟩

def initRegs : Regs := ⟨0, 0, 0, 0, [], []⟩

/-- Claim C5: when a second diagnostic slot is queued (`printing` true on
entry) with a target address different from the first slot's recorded
address, `print_Op2_buf_if_possible` zeroes both diagnostic slot lengths,
clears the printing flag and reports failure, so no diagnostic record is
produced for that session. -/
theorem C5_op2_address_mismatch_discards (rw : Nat) (buf : Nat → Nat)
    (bufsize lastAddress : Nat) (s : AppState)
    (hp : s.printing = true) (hne : s.printSlaveAddr ≠ lastAddress) :
    (print_Op2_buf_if_possible rw buf bufsize lastAddress s).1 = false ∧
    (print_Op2_buf_if_possible rw buf bufsize lastAddress s).2.printOp1Len = 0 ∧
    (print_Op2_buf_if_possible rw buf bufsize lastAddress s).2.printOp2Len = 0 ∧
    (print_Op2_buf_if_possible rw buf bufsize lastAddress s).2.printing = false := by
  unfold print_Op2_buf_if_possible
  simp [hp, hne]

theorem C5_op2_address_mismatch_discards_witness :
    (print_Op2_buf_if_possible LAST_OP_W zeroBuf 1 41
      { initApp with printing := true, printSlaveAddr := 42, printOp1Len := 1 }).1 = false ∧
    (print_Op2_buf_if_possible LAST_OP_W zeroBuf 1 41
      { initApp with printing := true, printSlaveAddr := 42, printOp1Len := 1 }).2.printOp1Len = 0 ∧
    (print_Op2_buf_if_possible LAST_OP_W zeroBuf 1 41
      { initApp with printing := true, printSlaveAddr := 42, printOp1Len := 1 }).2.printOp2Len = 0 ∧
    (print_Op2_buf_if_possible LAST_OP_W zeroBuf 1 41
      { initApp with printing := true, printSlaveAddr := 42, printOp1Len := 1 }).2.printing = false :=
  C5_op2_address_mismatch_discards LAST_OP_W zeroBuf 1 41
    { initApp with printing := true, printSlaveAddr := 42, printOp1Len := 1 }
    rfl (by decide)

/-- Frame facts: `print_Op1_buf_if_possible` touches only the diagnostic
print slots; the transaction buffers, relay cells and last-op markers are
untouched. -/
theorem pOp1_frame (rw : Nat) (buf : Nat → Nat) (n a : Nat) (s : AppState) :
    (print_Op1_buf_if_possible rw buf n a s).2.got_twi0 = s.got_twi0 ∧
    (print_Op1_buf_if_possible rw buf n a s).2.gotTwi0Buf = s.gotTwi0Buf ∧
    (print_Op1_buf_if_possible rw buf n a s).2.gotTwi0Len = s.gotTwi0Len ∧
    (print_Op1_buf_if_possible rw buf n a s).2.got_twi1 = s.got_twi1 ∧
    (print_Op1_buf_if_possible rw buf n a s).2.twi0RxBuf = s.twi0RxBuf ∧
    (print_Op1_buf_if_possible rw buf n a s).2.twi0RxLen = s.twi0RxLen ∧
    (print_Op1_buf_if_possible rw buf n a s).2.twi0TxBuf = s.twi0TxBuf ∧
    (print_Op1_buf_if_possible rw buf n a s).2.twi0TxLen = s.twi0TxLen ∧
    (print_Op1_buf_if_possible rw buf n a s).2.twi0TxIdx = s.twi0TxIdx ∧
    (print_Op1_buf_if_possible rw buf n a s).2.twi1RxBuf = s.twi1RxBuf ∧
    (print_Op1_buf_if_possible rw buf n a s).2.twi1RxLen = s.twi1RxLen ∧
    (print_Op1_buf_if_possible rw buf n a s).2.twi1TxBuf = s.twi1TxBuf ∧
    (print_Op1_buf_if_possible rw buf n a s).2.twi1TxLen = s.twi1TxLen ∧
    (print_Op1_buf_if_possible rw buf n a s).2.twi1TxIdx = s.twi1TxIdx ∧
    (print_Op1_buf_if_possible rw buf n a s).2.twi0LastOp = s.twi0LastOp ∧
    (print_Op1_buf_if_possible rw buf n a s).2.twi1LastOp = s.twi1LastOp ∧
    (print_Op1_buf_if_possible rw buf n a s).2.printing = s.printing := by
  simp only [print_Op1_buf_if_possible]
  split_ifs <;> simp

/-- The analogous frame facts for `print_Op2_buf_if_possible`. -/
theorem pOp2_frame (rw : Nat) (buf : Nat → Nat) (n a : Nat) (s : AppState) :
    (print_Op2_buf_if_possible rw buf n a s).2.got_twi0 = s.got_twi0 ∧
    (print_Op2_buf_if_possible rw buf n a s).2.gotTwi0Buf = s.gotTwi0Buf ∧
    (print_Op2_buf_if_possible rw buf n a s).2.gotTwi0Len = s.gotTwi0Len ∧
    (print_Op2_buf_if_possible rw buf n a s).2.got_twi1 = s.got_twi1 ∧
    (print_Op2_buf_if_possible rw buf n a s).2.twi0RxBuf = s.twi0RxBuf ∧
    (print_Op2_buf_if_possible rw buf n a s).2.twi0RxLen = s.twi0RxLen ∧
    (print_Op2_buf_if_possible rw buf n a s).2.twi0TxBuf = s.twi0TxBuf ∧
    (print_Op2_buf_if_possible rw buf n a s).2.twi0TxLen = s.twi0TxLen ∧
    (print_Op2_buf_if_possible rw buf n a s).2.twi0TxIdx = s.twi0TxIdx ∧
    (print_Op2_buf_if_possible rw buf n a s).2.twi1RxBuf = s.twi1RxBuf ∧
    (print_Op2_buf_if_possible rw buf n a s).2.twi1RxLen = s.twi1RxLen ∧
    (print_Op2_buf_if_possible rw buf n a s).2.twi1TxBuf = s.twi1TxBuf ∧
    (print_Op2_buf_if_possible rw buf n a s).2.twi1TxLen = s.twi1TxLen ∧
    (print_Op2_buf_if_possible rw buf n a s).2.twi1TxIdx = s.twi1TxIdx ∧
    (print_Op2_buf_if_possible rw buf n a s).2.twi0LastOp = s.twi0LastOp ∧
    (print_Op2_buf_if_possible rw buf n a s).2.twi1LastOp = s.twi1LastOp := by
  simp only [print_Op2_buf_if_possible]
  split_ifs <;> simp

/-- The `oob` tracking flag after a first-slot queueing: set only if it was
already set, or the copy loop ran past the 32-byte capacity. -/
theorem pOp1_oob (rw : Nat) (buf : Nat → Nat) (n a : Nat) (s : AppState) :
    (print_Op1_buf_if_possible rw buf n a s).2.oob
      = (s.oob || (s.printing && decide (BUFF_SIZE < n))) := by
  simp only [print_Op1_buf_if_possible]
  split_ifs with h <;> simp [h]

/-- The `oob` tracking flag after a second-slot queueing. -/
theorem pOp2_oob (rw : Nat) (buf : Nat → Nat) (n a : Nat) (s : AppState) :
    (print_Op2_buf_if_possible rw buf n a s).2.oob
      = (s.oob || (s.printing && decide (BUFF_SIZE < n))) := by
  simp only [print_Op2_buf_if_possible]
  split_ifs with h h2 <;> simp [h]

/-- Claim C4: on a `STOPPED` event classified as compound write-then-read
(transmit buffer non-empty, receive buffer empty), the host-facing bus's
callback copies the transmit payload into the Relay Record (`got_twi0_buf`)
and sets its new-data flag, while the application-facing bus's callback
leaves the Relay Record, its length, and both relay flags untouched in every
`STOPPED` branch. -/
theorem C4_relay_record_host_bus_only (uartAvail : Bool) (statusReg : Nat)
    (s : AppState) (r : Regs) :
    (s.twi0TxLen ≠ 0 → s.twi0RxLen = 0 →
      (twisCallback uartAvail .stopped statusReg s r).2.1.got_twi0 = true ∧
      (twisCallback uartAvail .stopped statusReg s r).2.1.gotTwi0Len = s.twi0TxLen ∧
      ∀ j, j < s.twi0TxLen →
        (twisCallback uartAvail .stopped statusReg s r).2.1.gotTwi0Buf j = s.twi0TxBuf j) ∧
    ((twi1sCallback uartAvail .stopped statusReg s r).2.1.got_twi0 = s.got_twi0 ∧
     (twi1sCallback uartAvail .stopped statusReg s r).2.1.gotTwi0Buf = s.gotTwi0Buf ∧
     (twi1sCallback uartAvail .stopped statusReg s r).2.1.gotTwi0Len = s.gotTwi0Len ∧
     (twi1sCallback uartAvail .stopped statusReg s r).2.1.got_twi1 = s.got_twi1) := by
  constructor
  · intro htx hrx
    have hfr := pOp2_frame s.twi0LastOp s.twi0TxBuf s.twi0TxLen (twis_lastAddress r) s
    simp [twisCallback, htx, hrx, hfr.2.2.1, hfr.2.2.2.2.2.2.1, hfr.2.2.2.2.2.2.2.1]
    intro j hj
    simp [copyInto, hj]
  · unfold twi1sCallback
    split_ifs <;>
      simp [pOp1_frame, pOp2_frame]

theorem C4_relay_record_host_bus_only_witness :
    ((twisCallback true .stopped 0
        { initApp with twi0TxBuf := fun _ => 9, twi0TxLen := 2 } initRegs).2.1.got_twi0 = true ∧
      (twisCallback true .stopped 0
        { initApp with twi0TxBuf := fun _ => 9, twi0TxLen := 2 } initRegs).2.1.gotTwi0Len = 2 ∧
      ∀ j, j < 2 →
        (twisCallback true .stopped 0
          { initApp with twi0TxBuf := fun _ => 9, twi0TxLen := 2 } initRegs).2.1.gotTwi0Buf j = 9) ∧
    ((twi1sCallback true .stopped 0
        { initApp with twi0TxBuf := fun _ => 9, twi0TxLen := 2 } initRegs).2.1.got_twi0 = false ∧
     (twi1sCallback true .stopped 0
        { initApp with twi0TxBuf := fun _ => 9, twi0TxLen := 2 } initRegs).2.1.gotTwi0Buf = zeroBuf ∧
     (twi1sCallback true .stopped 0
        { initApp with twi0TxBuf := fun _ => 9, twi0TxLen := 2 } initRegs).2.1.gotTwi0Len = 0 ∧
     (twi1sCallback true .stopped 0
        { initApp with twi0TxBuf := fun _ => 9, twi0TxLen := 2 } initRegs).2.1.got_twi1 = false) := by
  have h := C4_relay_record_host_bus_only true 0
    { initApp with twi0TxBuf := fun _ => 9, twi0TxLen := 2 } initRegs
  refine ⟨?_, h.2⟩
  have h1 := h.1 (by decide) rfl
  exact ⟨h1.1, h1.2.1, fun j hj => h1.2.2 j hj⟩

/-! ### Claim C9: cross-bus register use in the application-bus callback.

Concrete states exhibiting the application-facing callback's use of the
host-facing bus's registers (`twis_write`, `twis_read`, `twis_lastAddress`
in `twi1sCallback`). -/

/-- An application-bus session state with one byte (`0x55`) queued for
transmit. -/
def exApp9 : AppState :=
  { initApp with twi1TxBuf := fun _ => 0x55, twi1TxLen := 1 }

/-- Registers: the host bus (TWI0) last matched address 42 and holds `0xAA`
in its data register; the application bus (TWI1) last matched address 41 and
holds `0xBB`. -/
def exRegs9 : Regs :=
  ⟨0xAA, 0xBB, fromHost_addr, fromApp_addr, [], []⟩

/-- An application-bus write+write `STOPPED` state: a diagnostic first slot
was recorded for the application bus's own address 41 (`printSlaveAddr`),
printing is in progress, and both twi1 buffers are non-empty. -/
def exApp9s : AppState :=
  { initApp with
      printing := true
      printSlaveAddr := fromApp_addr
      printOp1Len := 1
      twi1TxLen := 1
      twi1RxLen := 1
      twi1LastOp := LAST_OP_W }

/-- Claim C9 (code bug exhibit): processing an application-bus `MREAD` event
writes the **host** bus's data register — `twi1sCallback` calls `twis_write`,
so `TWI1.SDATA` is untouched and the byte lands in `TWI0.SDATA` — and an
application-bus `STOPPED` classification passes the **host** bus's
last-matched address (`twis_lastAddress`) to the second-slot queueing, so a
diagnostic record keyed to the application bus's own address 41 is discarded
as an address mismatch even though the session was entirely on the
application bus. -/
theorem C9_app_bus_touches_host_bus_state :
    ((twi1sCallback true .mread 0 exApp9 exRegs9).2.2.sdata0 = 0x55 ∧
     (twi1sCallback true .mread 0 exApp9 exRegs9).2.2.log0 = [0x55] ∧
     (twi1sCallback true .mread 0 exApp9 exRegs9).2.2.sdata1 = 0xBB ∧
     (twi1sCallback true .mread 0 exApp9 exRegs9).2.2.log1 = []) ∧
    ((twi1sCallback true .stopped 0 exApp9s exRegs9).2.1.printing = false ∧
     (twi1sCallback true .stopped 0 exApp9s exRegs9).2.1.printOp1Len = 0 ∧
     (twi1sCallback true .stopped 0 exApp9s exRegs9).2.1.printOp2Len = 0) := by
  refine ⟨⟨?_, ?_, ?_, ?_⟩, ⟨?_, ?_, ?_⟩⟩ <;>
    simp [twi1sCallback, exApp9, exApp9s, exRegs9, initApp, twis_write,
      twi1s_write, twis_lastAddress, twi1s_lastAddress, print_Op1_buf_if_possible,
      print_Op2_buf_if_possible, printingGate, fromHost_addr, fromApp_addr, LAST_OP_A]

/-! ### Hardware-level slave event traces (`twi.c` slave ISRs)

One slave interrupt event, at the abstraction level of the decoded
`twis_irqstate_t` (the ISR's decode of `SSTATUS` into
error/stop/address/data-read/data-write, in that priority order, is the
source of these event kinds).  `addressed` carries the matched 7-bit
address; `mread` carries the RXACK bit (`nacked`); `mwrite` carries the byte
the external master deposited in `SDATA`; each carries the raw status byte
passed on to the callback. -/
inductive SlaveEvent where
  | addressed (addr status : Nat)
  | mread (nacked : Bool) (status : Nat)
  | mwrite (b status : Nat)
  | stopped (status : Nat)
  | busError (status : Nat)

/-- Per-bus slave-ISR bookkeeping: the ISR-static `is1st` flag, and `live`,
which records whether the ISR's last response for the current session was
ACK (`s_ack`) rather than NACK+complete (`s_nackComplete`).  After a
NACK+complete the hardware delivers no further data events until the next
address match, which is what trace validity enforces. -/
structure Engine where
  is1st : Bool
  live : Bool

/-- The whole interrupt-visible state: `main.c` globals, slave registers,
and both ISRs' bookkeeping. -/
structure World where
  app : AppState
  regs : Regs
  eng0 : Engine
  eng1 : Engine

def eventState : SlaveEvent → Twis_irqstate
  | .addressed _ _ => .addressed
  | .mread _ _ => .mread
  | .mwrite _ _ => .mwrite
  | .stopped _ => .stopped
  | .busError _ => .busError

def eventStatus : SlaveEvent → Nat
  | .addressed _ st => st
  | .mread _ st => st
  | .mwrite _ st => st
  | .stopped st => st
  | .busError st => st

/-- `twi.c` `ISR(TWI0_TWIS_vect)`: hardware pre-processing (record last
address on a match, the `is1st` skip of the first read's RXACK, `done` for
stop/error), then the callback, then ACK or NACK+complete (`live`). -/
def twi0Step (uartAvail : Bool) (ev : SlaveEvent) (w : World) : World :=
  let pre : Regs × Engine × Bool :=
    match ev with
    | .addressed a _ => ({ w.regs with lastAddress0 := a }, { w.eng0 with is1st := true }, false)
    | .mread nacked _ =>
        if w.eng0.is1st then (w.regs, { w.eng0 with is1st := false }, false)
        else (w.regs, w.eng0, nacked)
    | .mwrite b _ => ({ w.regs with sdata0 := b }, w.eng0, false)
    | .stopped _ => (w.regs, w.eng0, true)
    | .busError _ => (w.regs, w.eng0, true)
  let cb := twisCallback uartAvail (eventState ev) (eventStatus ev) w.app pre.1
  let done := pre.2.2 || !cb.1
  { app := cb.2.1, regs := cb.2.2, eng0 := { pre.2.1 with live := !done }, eng1 := w.eng1 }

/-- `twi.c` `ISR(TWI1_TWIS_vect)`: same shape for the application-facing
bus, dispatching to `twi1sCallback`. -/
def twi1Step (uartAvail : Bool) (ev : SlaveEvent) (w : World) : World :=
  let pre : Regs × Engine × Bool :=
    match ev with
    | .addressed a _ => ({ w.regs with lastAddress1 := a }, { w.eng1 with is1st := true }, false)
    | .mread nacked _ =>
        if w.eng1.is1st then (w.regs, { w.eng1 with is1st := false }, false)
        else (w.regs, w.eng1, nacked)
    | .mwrite b _ => ({ w.regs with sdata1 := b }, w.eng1, false)
    | .stopped _ => (w.regs, w.eng1, true)
    | .busError _ => (w.regs, w.eng1, true)
  let cb := twi1sCallback uartAvail (eventState ev) (eventStatus ev) w.app pre.1
  let done := pre.2.2 || !cb.1
  { app := cb.2.1, regs := cb.2.2, eng0 := w.eng0, eng1 := { pre.2.1 with live := !done } }

/-- A slave event on one of the two buses. -/
inductive BusEvent where
  | b0 (e : SlaveEvent)
  | b1 (e : SlaveEvent)

/-- One interrupt delivery: the event plus the value
`uart1_availableForWrite()` would return during it. -/
def stepW (i : BusEvent × Bool) (w : World) : World :=
  match i.1 with
  | .b0 e => twi0Step i.2 e w
  | .b1 e => twi1Step i.2 e w

def runW : World → List (BusEvent × Bool) → World
  | w, [] => w
  | w, i :: rest => runW (stepW i w) rest

/-- Which 7-bit addresses the TWI0 slave hardware matches:
`twis_init(fromHost_addr, ...)` programs `SADDR = (42<<1)|1`, i.e.
address 42 with general call (address 0) enabled. -/
def hwMatch0 (a : Nat) : Bool :=
  decide (a = fromHost_addr) || decide (a = 0)

/-- Which 7-bit addresses the TWI1 slave hardware matches: `setup()` calls
`twi1s_init(fromHost_addr, twi1sCallback)` — the **host** address constant —
so `SADDR = (42<<1)|1`: address 42 plus general call 0 (not 41). -/
def hwMatch1 (a : Nat) : Bool :=
  decide (a = fromHost_addr) || decide (a = 0)

/-- Hardware validity of delivering one event: an address event only for an
address the slave hardware matches; data events only while the engine's last
response in the session was ACK; stop and error events at any time. -/
def validEvB (w : World) : BusEvent → Bool
  | .b0 (.addressed a _) => hwMatch0 a
  | .b0 (.mread _ _) => w.eng0.live
  | .b0 (.mwrite _ _) => w.eng0.live
  | .b0 (.stopped _) => true
  | .b0 (.busError _) => true
  | .b1 (.addressed a _) => hwMatch1 a
  | .b1 (.mread _ _) => w.eng1.live
  | .b1 (.mwrite _ _) => w.eng1.live
  | .b1 (.stopped _) => true
  | .b1 (.busError _) => true

def validFromB : World → List (BusEvent × Bool) → Bool
  | _, [] => true
  | w, i :: rest => validEvB w i.1 && validFromB (stepW i w) rest

/-- Power-on state: C statics are zero-initialized, no session in progress. -/
def initWorld : World :=
  ⟨initApp, initRegs, ⟨false, false⟩, ⟨false, false⟩⟩

/-! ### The reachable-state invariant (claims C2 and C10)

Per-event facts about `twisCallback` needed for invariant preservation. -/

theorem twisCb_addressed_inv (ua : Bool) (st : Nat) (s : AppState) (r : Regs)
    (hoob : s.oob = false) (hrx : s.twi0RxLen ≤ BUFF_SIZE)
    (htx : s.twi0TxLen ≤ BUFF_SIZE) :
    (twisCallback ua .addressed st s r).2.1.oob = false ∧
    (twisCallback ua .addressed st s r).2.1.twi0RxLen = 0 ∧
    (twisCallback ua .addressed st s r).2.1.twi0TxLen ≤ BUFF_SIZE ∧
    (twisCallback ua .addressed st s r).2.1.gotTwi0Len = s.gotTwi0Len ∧
    (twisCallback ua .addressed st s r).2.1.twi1RxLen = s.twi1RxLen ∧
    (twisCallback ua .addressed st s r).2.1.twi1TxLen = s.twi1TxLen := by
  have h32 : ¬(BUFF_SIZE < s.twi0RxLen) := not_lt.mpr hrx
  by_cases hrx0 : s.twi0RxLen = 0
  · simp [twisCallback, hrx0, hoob, hrx, htx]
  · simp [twisCallback, hrx0, pOp1_frame, pOp1_oob, hoob, h32, hrx]

theorem twisCb_mread_inv (ua : Bool) (st : Nat) (s : AppState) (r : Regs) :
    (twisCallback ua .mread st s r).1 = true ∧
    (twisCallback ua .mread st s r).2.1.oob = s.oob ∧
    (twisCallback ua .mread st s r).2.1.twi0RxLen = s.twi0RxLen ∧
    (twisCallback ua .mread st s r).2.1.twi0TxLen = s.twi0TxLen ∧
    (twisCallback ua .mread st s r).2.1.gotTwi0Len = s.gotTwi0Len ∧
    (twisCallback ua .mread st s r).2.1.twi1RxLen = s.twi1RxLen ∧
    (twisCallback ua .mread st s r).2.1.twi1TxLen = s.twi1TxLen := by
  unfold twisCallback
  split_ifs <;> simp

theorem twisCb_mwrite_inv (ua : Bool) (st : Nat) (s : AppState) (r : Regs)
    (hoob : s.oob = false) (hrx : s.twi0RxLen < BUFF_SIZE) :
    (twisCallback ua .mwrite st s r).1 = decide (s.twi0RxLen + 1 < BUFF_SIZE) ∧
    (twisCallback ua .mwrite st s r).2.1.oob = false ∧
    (twisCallback ua .mwrite st s r).2.1.twi0RxLen = s.twi0RxLen + 1 ∧
    (twisCallback ua .mwrite st s r).2.1.twi0TxLen = s.twi0TxLen ∧
    (twisCallback ua .mwrite st s r).2.1.gotTwi0Len = s.gotTwi0Len ∧
    (twisCallback ua .mwrite st s r).2.1.twi1RxLen = s.twi1RxLen ∧
    (twisCallback ua .mwrite st s r).2.1.twi1TxLen = s.twi1TxLen := by
  have h32 : ¬(BUFF_SIZE ≤ s.twi0RxLen) := not_le.mpr hrx
  simp [twisCallback, hoob, h32]

theorem twisCb_stopped_inv (ua : Bool) (st : Nat) (s : AppState) (r : Regs)
    (hoob : s.oob = false) (hrx : s.twi0RxLen ≤ BUFF_SIZE) (htx : s.twi0TxLen ≤ BUFF_SIZE)
    (hgot : s.gotTwi0Len ≤ BUFF_SIZE) :
    (twisCallback ua .stopped st s r).1 = true ∧
    (twisCallback ua .stopped st s r).2.1.oob = false ∧
    (twisCallback ua .stopped st s r).2.1.twi0RxLen = 0 ∧
    (twisCallback ua .stopped st s r).2.1.twi0TxLen = 0 ∧
    (twisCallback ua .stopped st s r).2.1.gotTwi0Len ≤ BUFF_SIZE ∧
    (twisCallback ua .stopped st s r).2.1.twi1RxLen = s.twi1RxLen ∧
    (twisCallback ua .stopped st s r).2.1.twi1TxLen = s.twi1TxLen := by
  have h32r : ¬(BUFF_SIZE < s.twi0RxLen) := not_lt.mpr hrx
  have h32t : ¬(BUFF_SIZE < s.twi0TxLen) := not_lt.mpr htx
  by_cases htx0 : s.twi0TxLen = 0
  · by_cases hrx0 : s.twi0RxLen = 0
    · by_cases hop : s.twi0LastOp = LAST_OP_A
      · simp [twisCallback, htx0, hrx0, hop, hoob, hgot]
      · simp [twisCallback, htx0, hrx0, hop, hoob, hgot]
    · simp [twisCallback, htx0, hrx0, pOp1_frame, pOp1_oob, hoob, h32r, hgot]
  · by_cases hrx0 : s.twi0RxLen = 0
    · simp [twisCallback, htx0, hrx0, pOp2_frame, pOp2_oob, hoob, h32r, h32t, htx]
    · simp [twisCallback, htx0, hrx0, pOp2_frame, pOp2_oob, hoob, h32r, h32t, hgot]

theorem twisCb_busError_inv (ua : Bool) (st : Nat) (s : AppState) (r : Regs) :
    (twisCallback ua .busError st s r).2.1 = s := rfl

/-- Per-event facts about `twi1sCallback` on states where the application
bus's buffers are empty (the only reachable states, see `invW_run`). -/
theorem twi1Cb_addressed_inv (ua : Bool) (st : Nat) (s : AppState) (r : Regs)
    (hrx1 : s.twi1RxLen = 0) :
    (twi1sCallback ua .addressed st s r).1 = decide (r.lastAddress1 = fromApp_addr) ∧
    (twi1sCallback ua .addressed st s r).2.1.oob = s.oob ∧
    (twi1sCallback ua .addressed st s r).2.1.twi0RxLen = s.twi0RxLen ∧
    (twi1sCallback ua .addressed st s r).2.1.twi0TxLen = s.twi0TxLen ∧
    (twi1sCallback ua .addressed st s r).2.1.gotTwi0Len = s.gotTwi0Len ∧
    (twi1sCallback ua .addressed st s r).2.1.twi1RxLen = 0 ∧
    (twi1sCallback ua .addressed st s r).2.1.twi1TxLen = s.twi1TxLen := by
  simp [twi1sCallback, hrx1, twi1s_lastAddress]

theorem twi1Cb_stopped_inv (ua : Bool) (st : Nat) (s : AppState) (r : Regs)
    (hrx1 : s.twi1RxLen = 0) (htx1 : s.twi1TxLen = 0) :
    (twi1sCallback ua .stopped st s r).1 = true ∧
    (twi1sCallback ua .stopped st s r).2.1.oob = s.oob ∧
    (twi1sCallback ua .stopped st s r).2.1.twi0RxLen = s.twi0RxLen ∧
    (twi1sCallback ua .stopped st s r).2.1.twi0TxLen = s.twi0TxLen ∧
    (twi1sCallback ua .stopped st s r).2.1.gotTwi0Len = s.gotTwi0Len ∧
    (twi1sCallback ua .stopped st s r).2.1.twi1RxLen = 0 ∧
    (twi1sCallback ua .stopped st s r).2.1.twi1TxLen = 0 := by
  by_cases hop : s.twi1LastOp = LAST_OP_A
  · simp [twi1sCallback, hrx1, htx1, hop]
  · simp [twi1sCallback, hrx1, htx1, hop]

theorem twi1Cb_busError_inv (ua : Bool) (st : Nat) (s : AppState) (r : Regs) :
    (twi1sCallback ua .busError st s r).2.1 = s := rfl

/-- The reachable-state invariant of the interrupt-driven state: the `oob`
flag never gets set, the host-bus buffer lengths stay within the 32-byte
capacity (strictly below it while a host-bus session is being ACKed), and
the application bus — whose slave hardware is initialized with the host
address constant while its callback only accepts the application address —
never accumulates any buffered data or keeps a session alive. -/
def InvW (w : World) : Prop :=
  w.app.oob = false ∧
  w.app.twi0RxLen ≤ BUFF_SIZE ∧
  w.app.twi0TxLen ≤ BUFF_SIZE ∧
  w.app.gotTwi0Len ≤ BUFF_SIZE ∧
  (w.eng0.live = true → w.app.twi0RxLen < BUFF_SIZE) ∧
  w.eng1.live = false ∧
  w.app.twi1RxLen = 0 ∧
  w.app.twi1TxLen = 0

theorem invW_init : InvW initWorld := by
  refine ⟨rfl, ?_, ?_, ?_, ?_, rfl, rfl, rfl⟩ <;> simp [initWorld, initApp, BUFF_SIZE]

theorem invW_step (i : BusEvent × Bool) (w : World) (hInv : InvW w)
    (hval : validEvB w i.1 = true) : InvW (stepW i w) := by
  obtain ⟨hoob, hrx, htx, hgot, hlive, hl1, hr1, ht1⟩ := hInv
  obtain ⟨e, ua⟩ := i
  cases e with
  | b0 ev =>
    cases ev with
    | addressed a st =>
        have h := twisCb_addressed_inv ua st w.app { w.regs with lastAddress0 := a } hoob hrx htx
        simp only [stepW, twi0Step, eventState, eventStatus, InvW]
        refine ⟨h.1, ?_, h.2.2.1, ?_, ?_, hl1, ?_, ?_⟩
        · rw [h.2.1]; exact Nat.zero_le _
        · rw [h.2.2.2.1]; exact hgot
        · intro _; rw [h.2.1]; norm_num [BUFF_SIZE]
        · rw [h.2.2.2.2.1]; exact hr1
        · rw [h.2.2.2.2.2]; exact ht1
    | mread nk st =>
        have hlv : w.eng0.live = true := by simpa [validEvB] using hval
        have h := twisCb_mread_inv ua st w.app w.regs
        by_cases hfirst : w.eng0.is1st
        · simp only [stepW, twi0Step, eventState, eventStatus, InvW, hfirst, if_pos]
          refine ⟨?_, ?_, ?_, ?_, ?_, hl1, ?_, ?_⟩
          · rw [h.2.1]; exact hoob
          · rw [h.2.2.1]; exact hrx
          · rw [h.2.2.2.1]; exact htx
          · rw [h.2.2.2.2.1]; exact hgot
          · intro _; rw [h.2.2.1]; exact hlive hlv
          · rw [h.2.2.2.2.2.1]; exact hr1
          · rw [h.2.2.2.2.2.2]; exact ht1
        · simp only [stepW, twi0Step, eventState, eventStatus, InvW, hfirst, if_neg,
            Bool.false_eq_true, not_false_eq_true]
          refine ⟨?_, ?_, ?_, ?_, ?_, hl1, ?_, ?_⟩
          · rw [h.2.1]; exact hoob
          · rw [h.2.2.1]; exact hrx
          · rw [h.2.2.2.1]; exact htx
          · rw [h.2.2.2.2.1]; exact hgot
          · intro _; rw [h.2.2.1]; exact hlive hlv
          · rw [h.2.2.2.2.2.1]; exact hr1
          · rw [h.2.2.2.2.2.2]; exact ht1
    | mwrite b st =>
        have hlv : w.eng0.live = true := by simpa [validEvB] using hval
        have hlt : w.app.twi0RxLen < BUFF_SIZE := hlive hlv
        have h := twisCb_mwrite_inv ua st w.app { w.regs with sdata0 := b } hoob hlt
        simp only [stepW, twi0Step, eventState, eventStatus, InvW]
        refine ⟨?_, ?_, ?_, ?_, ?_, hl1, ?_, ?_⟩
        · exact h.2.1
        · rw [h.2.2.1]; omega
        · rw [h.2.2.2.1]; exact htx
        · rw [h.2.2.2.2.1]; exact hgot
        · intro hlv2
          rw [h.2.2.1]
          simp only [Bool.false_or] at hlv2
          rw [Bool.not_eq_eq_eq_not] at hlv2
          simp only [Bool.not_true, Bool.not_eq_false'] at hlv2
          have := h.1
          rw [hlv2] at this
          exact of_decide_eq_true this.symm
        · rw [h.2.2.2.2.2.1]; exact hr1
        · rw [h.2.2.2.2.2.2]; exact ht1
    | stopped st =>
        have h := twisCb_stopped_inv ua st w.app w.regs hoob hrx htx hgot
        simp only [stepW, twi0Step, eventState, eventStatus, InvW]
        refine ⟨?_, ?_, ?_, ?_, ?_, hl1, ?_, ?_⟩
        · exact h.2.1
        · rw [h.2.2.1]; exact Nat.zero_le _
        · rw [h.2.2.2.1]; exact Nat.zero_le _
        · exact h.2.2.2.2.1
        · simp
        · rw [h.2.2.2.2.2.1]; exact hr1
        · rw [h.2.2.2.2.2.2]; exact ht1
    | busError st =>
        simp only [stepW, twi0Step, eventState, eventStatus, InvW, twisCb_busError_inv]
        exact ⟨hoob, hrx, htx, hgot, by simp, hl1, hr1, ht1⟩
  | b1 ev =>
    cases ev with
    | addressed a st =>
        have h := twi1Cb_addressed_inv ua st w.app { w.regs with lastAddress1 := a } hr1
        have hne : ({ w.regs with lastAddress1 := a } : Regs).lastAddress1 ≠ fromApp_addr := by
          have hm : a = fromHost_addr ∨ a = 0 := by
            simpa [hwMatch1, validEvB] using hval
          rcases hm with hm | hm <;> simp [hm, fromHost_addr, fromApp_addr]
        simp only [stepW, twi1Step, eventState, eventStatus, InvW]
        refine ⟨?_, ?_, ?_, ?_, ?_, ?_, ?_, ?_⟩
        · rw [h.2.1]; exact hoob
        · rw [h.2.2.1]; exact hrx
        · rw [h.2.2.2.1]; exact htx
        · rw [h.2.2.2.2.1]; exact hgot
        · intro hlv; rw [h.2.2.1]; exact hlive hlv
        · have hcb : (twi1sCallback ua .addressed st w.app
              { w.regs with lastAddress1 := a }).1 = false := by
            rw [h.1]; exact decide_eq_false hne
          simp [hcb]
        · exact h.2.2.2.2.2.1
        · rw [h.2.2.2.2.2.2]; exact ht1
    | mread nk st =>
        exfalso
        have : w.eng1.live = true := by simpa [validEvB] using hval
        rw [hl1] at this
        exact Bool.false_ne_true this
    | mwrite b st =>
        exfalso
        have : w.eng1.live = true := by simpa [validEvB] using hval
        rw [hl1] at this
        exact Bool.false_ne_true this
    | stopped st =>
        have h := twi1Cb_stopped_inv ua st w.app w.regs hr1 ht1
        simp only [stepW, twi1Step, eventState, eventStatus, InvW]
        refine ⟨?_, ?_, ?_, ?_, ?_, ?_, ?_, ?_⟩
        · rw [h.2.1]; exact hoob
        · rw [h.2.2.1]; exact hrx
        · rw [h.2.2.2.1]; exact htx
        · rw [h.2.2.2.2.1]; exact hgot
        · intro hlv; rw [h.2.2.1]; exact hlive hlv
        · simp
        · exact h.2.2.2.2.2.1
        · exact h.2.2.2.2.2.2
    | busError st =>
        simp only [stepW, twi1Step, eventState, eventStatus, InvW, twi1Cb_busError_inv]
        exact ⟨hoob, hrx, htx, hgot, hlive, by simp, hr1, ht1⟩

theorem invW_run : ∀ evs w, InvW w → validFromB w evs = true → InvW (runW w evs) := by
  intro evs
  induction evs with
  | nil => intro w h _; exact h
  | cons i rest ih =>
      intro w h hv
      simp only [validFromB, Bool.and_eq_true] at hv
      exact ih (stepW i w) (invW_step i w h hv.1) hv.2

/-- The `MWRITE` branch's return value: accept exactly while the receive
length stays below capacity after storing (`ret = (++twi0RxBufferLength <
BUFF_SIZE)`). -/
theorem twisCb_mwrite_ret (ua : Bool) (st : Nat) (s : AppState) (r : Regs) :
    (twisCallback ua .mwrite st s r).1 = decide (s.twi0RxLen + 1 < BUFF_SIZE) := by
  simp [twisCallback]

/-- Claim C2: along every hardware-valid event trace from power-on, the
host-bus receive length never exceeds the 32-byte capacity and no byte is
ever stored past the end of a 32-byte buffer (`oob` stays false); moreover,
whenever storing one more byte would reach capacity, the `MWRITE` callback
returns false, which makes the slave ISR issue NACK+complete-transaction. -/
theorem C2_no_slave_rx_overflow (evs : List (BusEvent × Bool))
    (hval : validFromB initWorld evs = true) :
    (runW initWorld evs).app.oob = false ∧
    (runW initWorld evs).app.twi0RxLen ≤ BUFF_SIZE ∧
    ∀ ua st r, BUFF_SIZE ≤ (runW initWorld evs).app.twi0RxLen + 1 →
      (twisCallback ua .mwrite st (runW initWorld evs).app r).1 = false := by
  have h := invW_run evs initWorld invW_init hval
  refine ⟨h.1, h.2.1, ?_⟩
  intro ua st r hfull
  rw [twisCb_mwrite_ret]
  exact decide_eq_false (by omega)

def exTrace2 : List (BusEvent × Bool) :=
  [(BusEvent.b0 (SlaveEvent.addressed 42 0), true),
   (BusEvent.b0 (SlaveEvent.mwrite 5 0), true)]

theorem C2_no_slave_rx_overflow_witness :
    validFromB initWorld exTrace2 = true ∧
    (runW initWorld exTrace2).app.oob = false ∧
    (runW initWorld exTrace2).app.twi0RxLen ≤ BUFF_SIZE :=
  ⟨rfl, (C2_no_slave_rx_overflow exTrace2 rfl).1,
   (C2_no_slave_rx_overflow exTrace2 rfl).2.1⟩

/-- Claim C10: the application-facing slave hardware is initialized (via
`twi1s_init(fromHost_addr, ...)`) to match address 42 plus general call 0,
while `twi1sCallback`'s `ADDRESSED` branch proceeds only when the matched
address equals `fromApp_addr` (41); hence for every address the hardware can
match, the callback returns false (the session is NACKed at the address
phase), and along every hardware-valid trace from power-on, the application
bus's receive and transmit buffers never accumulate data. -/
theorem C10_app_bus_always_nacked (a st : Nat) (ua : Bool) (s : AppState) (r : Regs)
    (evs : List (BusEvent × Bool))
    (hmatch : hwMatch1 a = true) (hval : validFromB initWorld evs = true) :
    (twi1sCallback ua .addressed st s { r with lastAddress1 := a }).1 = false ∧
    (runW initWorld evs).app.twi1RxLen = 0 ∧
    (runW initWorld evs).app.twi1TxLen = 0 := by
  have hInv := invW_run evs initWorld invW_init hval
  refine ⟨?_, hInv.2.2.2.2.2.2.1, hInv.2.2.2.2.2.2.2⟩
  have hm : a = fromHost_addr ∨ a = 0 := by simpa [hwMatch1] using hmatch
  have hret : (twi1sCallback ua .addressed st s { r with lastAddress1 := a }).1
      = decide (a = fromApp_addr) := by
    simp [twi1sCallback, twi1s_lastAddress]
  rw [hret]
  rcases hm with hm | hm <;> simp [hm, fromHost_addr, fromApp_addr]

def exTrace10 : List (BusEvent × Bool) :=
  [(BusEvent.b1 (SlaveEvent.addressed 42 0), true),
   (BusEvent.b1 (SlaveEvent.stopped 0), true)]

theorem C10_app_bus_always_nacked_witness :
    hwMatch1 42 = true ∧ validFromB initWorld exTrace10 = true ∧
    ((twi1sCallback true .addressed 0 initApp { initRegs with lastAddress1 := 42 }).1 = false ∧
     (runW initWorld exTrace10).app.twi1RxLen = 0 ∧
     (runW initWorld exTrace10).app.twi1TxLen = 0) :=
  ⟨rfl, rfl, C10_app_bus_always_nacked 42 0 true initApp initRegs exTrace10 rfl rfl⟩

/-! ### Claim C3: the echo of the last written payload

Event-trace building blocks: a burst of master writes, a burst of master
reads (master keeps ACKing), and the write-then-repeated-start-then-read
compound session. -/

def mwTrace (bs : List Nat) : List (BusEvent × Bool) :=
  bs.map (fun b => (BusEvent.b0 (SlaveEvent.mwrite b 0), true))

def mrTrace (k : Nat) : List (BusEvent × Bool) :=
  List.replicate k (BusEvent.b0 (SlaveEvent.mread false 0), true)

/-- The compound host-bus session of the echo scenario: address match,
the master writes `bs`, a repeated start re-addresses the slave, then the
master reads `k` bytes. -/
def echoTrace (bs : List Nat) (k : Nat) : List (BusEvent × Bool) :=
  ((BusEvent.b0 (SlaveEvent.addressed fromHost_addr 0), true) :: mwTrace bs)
    ++ ((BusEvent.b0 (SlaveEvent.addressed fromHost_addr 0), true) :: mrTrace k)

theorem runW_append (xs ys : List (BusEvent × Bool)) :
    ∀ w, runW w (xs ++ ys) = runW (runW w xs) ys := by
  induction xs with
  | nil => intro w; rfl
  | cons i rest ih => intro w; simp only [List.cons_append, runW]; exact ih (stepW i w)

theorem validFromB_append (xs ys : List (BusEvent × Bool)) :
    ∀ w, validFromB w (xs ++ ys) = (validFromB w xs && validFromB (runW w xs) ys) := by
  induction xs with
  | nil => intro w; simp [validFromB, runW]
  | cons i rest ih =>
      intro w
      simp only [List.cons_append, validFromB, runW, List.append_eq]
      rw [ih (stepW i w), Bool.and_assoc]

/-- Effect of one delivered host-bus `MWRITE` interrupt. -/
theorem step_mwrite_facts (b st : Nat) (ua : Bool) (w : World) :
    (stepW (BusEvent.b0 (SlaveEvent.mwrite b st), ua) w).app.twi0RxBuf
        = bufStore w.app.twi0RxBuf w.app.twi0RxLen b ∧
    (stepW (BusEvent.b0 (SlaveEvent.mwrite b st), ua) w).app.twi0RxLen
        = w.app.twi0RxLen + 1 ∧
    (stepW (BusEvent.b0 (SlaveEvent.mwrite b st), ua) w).app.twi0TxBuf = w.app.twi0TxBuf ∧
    (stepW (BusEvent.b0 (SlaveEvent.mwrite b st), ua) w).app.twi0TxLen = w.app.twi0TxLen ∧
    (stepW (BusEvent.b0 (SlaveEvent.mwrite b st), ua) w).app.twi0TxIdx = w.app.twi0TxIdx ∧
    (stepW (BusEvent.b0 (SlaveEvent.mwrite b st), ua) w).regs.log0 = w.regs.log0 ∧
    (stepW (BusEvent.b0 (SlaveEvent.mwrite b st), ua) w).regs.lastAddress0
        = w.regs.lastAddress0 ∧
    (stepW (BusEvent.b0 (SlaveEvent.mwrite b st), ua) w).eng0.is1st = w.eng0.is1st ∧
    (stepW (BusEvent.b0 (SlaveEvent.mwrite b st), ua) w).eng0.live
        = decide (w.app.twi0RxLen + 1 < BUFF_SIZE) := by
  simp [stepW, twi0Step, twisCallback, eventState, eventStatus, twis_read]

/-- Effect of a host-bus address match arriving with a non-empty receive
buffer (the repeated-start case): the receive buffer is copied into the
transmit buffer, the receive length is reset to zero and the transmit
cursor rewound. -/
theorem step_addressed_facts (a st : Nat) (ua : Bool) (w : World)
    (hrx : w.app.twi0RxLen ≠ 0) :
    (stepW (BusEvent.b0 (SlaveEvent.addressed a st), ua) w).app.twi0TxBuf
        = copyInto w.app.twi0RxBuf w.app.twi0TxBuf w.app.twi0RxLen ∧
    (stepW (BusEvent.b0 (SlaveEvent.addressed a st), ua) w).app.twi0TxLen
        = w.app.twi0RxLen ∧
    (stepW (BusEvent.b0 (SlaveEvent.addressed a st), ua) w).app.twi0TxIdx = 0 ∧
    (stepW (BusEvent.b0 (SlaveEvent.addressed a st), ua) w).app.twi0RxLen = 0 ∧
    (stepW (BusEvent.b0 (SlaveEvent.addressed a st), ua) w).regs.log0 = w.regs.log0 ∧
    (stepW (BusEvent.b0 (SlaveEvent.addressed a st), ua) w).eng0.live
        = decide (a = fromHost_addr) ∧
    (stepW (BusEvent.b0 (SlaveEvent.addressed a st), ua) w).eng0.is1st = true := by
  simp [stepW, twi0Step, twisCallback, eventState, eventStatus, twis_lastAddress, hrx,
    pOp1_frame]

/-- Effect of one delivered host-bus `MREAD` interrupt (master still ACKing)
while transmit data remains: the next transmit-buffer byte is written to the
data register (appended to the log) and the cursor advances. -/
theorem step_mread_facts (st : Nat) (ua : Bool) (w : World)
    (hidx : w.app.twi0TxIdx < w.app.twi0TxLen) :
    (stepW (BusEvent.b0 (SlaveEvent.mread false st), ua) w).regs.log0
        = w.regs.log0 ++ [w.app.twi0TxBuf w.app.twi0TxIdx] ∧
    (stepW (BusEvent.b0 (SlaveEvent.mread false st), ua) w).app.twi0TxIdx
        = w.app.twi0TxIdx + 1 ∧
    (stepW (BusEvent.b0 (SlaveEvent.mread false st), ua) w).app.twi0TxBuf
        = w.app.twi0TxBuf ∧
    (stepW (BusEvent.b0 (SlaveEvent.mread false st), ua) w).app.twi0TxLen
        = w.app.twi0TxLen ∧
    (stepW (BusEvent.b0 (SlaveEvent.mread false st), ua) w).eng0.live = true ∧
    (stepW (BusEvent.b0 (SlaveEvent.mread false st), ua) w).app.twi0RxLen
        = w.app.twi0RxLen := by
  by_cases hfirst : w.eng0.is1st <;>
    simp [stepW, twi0Step, twisCallback, eventState, eventStatus, twis_write, hidx, hfirst]

/-- Running a burst of accepted master writes `bs` on the host bus: every
byte is stored at the advancing receive index, nothing else moves. -/
theorem run_mwrites (bs : List Nat) : ∀ (w : World),
    (bs ≠ [] → w.eng0.live = true) →
    w.app.twi0RxLen + bs.length ≤ BUFF_SIZE →
    validFromB w (mwTrace bs) = true ∧
    (runW w (mwTrace bs)).app.twi0RxLen = w.app.twi0RxLen + bs.length ∧
    (∀ j, j < w.app.twi0RxLen →
      (runW w (mwTrace bs)).app.twi0RxBuf j = w.app.twi0RxBuf j) ∧
    (∀ j, j < bs.length →
      (runW w (mwTrace bs)).app.twi0RxBuf (w.app.twi0RxLen + j) = bs.getD j 0) ∧
    (runW w (mwTrace bs)).app.twi0TxBuf = w.app.twi0TxBuf ∧
    (runW w (mwTrace bs)).app.twi0TxLen = w.app.twi0TxLen ∧
    (runW w (mwTrace bs)).app.twi0TxIdx = w.app.twi0TxIdx ∧
    (runW w (mwTrace bs)).regs.log0 = w.regs.log0 := by
  induction bs with
  | nil =>
      intro w _ _
      refine ⟨rfl, by simp [mwTrace, runW], ?_, ?_, rfl, rfl, rfl, rfl⟩
      · intro j _; rfl
      · intro j hj; simp at hj
  | cons b rest ih =>
      intro w hlv hlen
      have hlive : w.eng0.live = true := hlv (by simp)
      have hstep := step_mwrite_facts b 0 true w
      have hlen1 : (stepW (BusEvent.b0 (SlaveEvent.mwrite b 0), true) w).app.twi0RxLen
          + rest.length ≤ BUFF_SIZE := by
        rw [hstep.2.1]
        simp only [List.length_cons] at hlen
        omega
      have hlv1 : rest ≠ [] →
          (stepW (BusEvent.b0 (SlaveEvent.mwrite b 0), true) w).eng0.live = true := by
        intro hne
        rw [hstep.2.2.2.2.2.2.2.2]
        have hpos : 1 ≤ rest.length := by
          cases rest with
          | nil => exact absurd rfl hne
          | cons x xs => simp
        simp only [List.length_cons] at hlen
        exact decide_eq_true (by omega)
      have hrest := ih (stepW (BusEvent.b0 (SlaveEvent.mwrite b 0), true) w) hlv1 hlen1
      have hmw : mwTrace (b :: rest)
          = (BusEvent.b0 (SlaveEvent.mwrite b 0), true) :: mwTrace rest := rfl
      have hrun : runW w (mwTrace (b :: rest))
          = runW (stepW (BusEvent.b0 (SlaveEvent.mwrite b 0), true) w) (mwTrace rest) := by
        rw [hmw]; rfl
      refine ⟨?_, ?_, ?_, ?_, ?_, ?_, ?_, ?_⟩
      · rw [hmw]
        simp only [validFromB, Bool.and_eq_true]
        exact ⟨by simpa [validEvB] using hlive, hrest.1⟩
      · rw [hrun, hrest.2.1, hstep.2.1]
        simp only [List.length_cons]
        omega
      · intro j hj
        rw [hrun]
        have h1 : (runW (stepW (BusEvent.b0 (SlaveEvent.mwrite b 0), true) w)
            (mwTrace rest)).app.twi0RxBuf j
            = (stepW (BusEvent.b0 (SlaveEvent.mwrite b 0), true) w).app.twi0RxBuf j := by
          apply hrest.2.2.1
          rw [hstep.2.1]; omega
        rw [h1, hstep.1]
        unfold bufStore
        rw [if_neg (by omega)]
      · intro j hj
        rw [hrun]
        cases j with
        | zero =>
            have h1 : (runW (stepW (BusEvent.b0 (SlaveEvent.mwrite b 0), true) w)
                (mwTrace rest)).app.twi0RxBuf w.app.twi0RxLen
                = (stepW (BusEvent.b0 (SlaveEvent.mwrite b 0), true) w).app.twi0RxBuf
                    w.app.twi0RxLen := by
              apply hrest.2.2.1
              rw [hstep.2.1]; omega
            rw [Nat.add_zero, h1, hstep.1]
            unfold bufStore
            rw [if_pos rfl]
            rfl
        | succ j' =>
            have h2 : w.app.twi0RxLen + (j' + 1)
                = (stepW (BusEvent.b0 (SlaveEvent.mwrite b 0), true) w).app.twi0RxLen + j' := by
              rw [hstep.2.1]; omega
            rw [h2]
            have h3 := hrest.2.2.2.1 j' (by simp only [List.length_cons] at hj; omega)
            rw [h3]
            rfl
      · rw [hrun, hrest.2.2.2.2.1, hstep.2.2.1]
      · rw [hrun, hrest.2.2.2.2.2.1, hstep.2.2.2.1]
      · rw [hrun, hrest.2.2.2.2.2.2.1, hstep.2.2.2.2.1]
      · rw [hrun, hrest.2.2.2.2.2.2.2, hstep.2.2.2.2.2.1]

theorem map_range_shift (f : Nat → Nat) (k i : Nat) :
    (List.range (k + 1)).map (fun j => f (i + j))
      = f i :: (List.range k).map (fun j => f (i + 1 + j)) := by
  rw [List.range_succ_eq_map, List.map_cons, List.map_map]
  have h1 : ((fun j => f (i + j)) ∘ Nat.succ) = fun j => f (i + 1 + j) := by
    funext j
    simp only [Function.comp, Nat.succ_eq_add_one]
    congr 1
    omega
  rw [h1, Nat.add_zero]

/-- Running `k` master reads (master keeps ACKing) on the host bus while at
least `k` transmit bytes remain: the bytes written to the data register are
the transmit-buffer bytes at the advancing cursor. -/
theorem run_mreads (k : Nat) : ∀ (w : World), w.eng0.live = true →
    w.app.twi0TxIdx + k ≤ w.app.twi0TxLen →
    validFromB w (mrTrace k) = true ∧
    (runW w (mrTrace k)).regs.log0 =
      w.regs.log0 ++ (List.range k).map (fun j => w.app.twi0TxBuf (w.app.twi0TxIdx + j)) ∧
    (runW w (mrTrace k)).app.twi0TxIdx = w.app.twi0TxIdx + k ∧
    (runW w (mrTrace k)).app.twi0TxBuf = w.app.twi0TxBuf ∧
    (runW w (mrTrace k)).app.twi0TxLen = w.app.twi0TxLen ∧
    (runW w (mrTrace k)).app.twi0RxLen = w.app.twi0RxLen := by
  induction k with
  | zero =>
      intro w _ _
      exact ⟨rfl, by simp [mrTrace, runW], rfl, rfl, rfl, rfl⟩
  | succ k' ih =>
      intro w hlive hk
      have hidx : w.app.twi0TxIdx < w.app.twi0TxLen := by omega
      have hstep := step_mread_facts 0 true w hidx
      have hlv1 : (stepW (BusEvent.b0 (SlaveEvent.mread false 0), true) w).eng0.live = true :=
        hstep.2.2.2.2.1
      have hk1 : (stepW (BusEvent.b0 (SlaveEvent.mread false 0), true) w).app.twi0TxIdx + k'
          ≤ (stepW (BusEvent.b0 (SlaveEvent.mread false 0), true) w).app.twi0TxLen := by
        rw [hstep.2.1, hstep.2.2.2.1]; omega
      have hrest := ih (stepW (BusEvent.b0 (SlaveEvent.mread false 0), true) w) hlv1 hk1
      have hmr : mrTrace (k' + 1)
          = (BusEvent.b0 (SlaveEvent.mread false 0), true) :: mrTrace k' := by
        simp [mrTrace, List.replicate_succ]
      have hrun : runW w (mrTrace (k' + 1))
          = runW (stepW (BusEvent.b0 (SlaveEvent.mread false 0), true) w) (mrTrace k') := by
        rw [hmr]; rfl
      refine ⟨?_, ?_, ?_, ?_, ?_, ?_⟩
      · rw [hmr]
        simp only [validFromB, Bool.and_eq_true]
        exact ⟨by simpa [validEvB] using hlive, hrest.1⟩
      · rw [hrun, hrest.2.1, hstep.1, hstep.2.1, hstep.2.2.1,
          map_range_shift w.app.twi0TxBuf k' w.app.twi0TxIdx, List.append_assoc,
          List.singleton_append]
      · rw [hrun, hrest.2.2.1, hstep.2.1]
        omega
      · rw [hrun, hrest.2.2.2.1, hstep.2.2.1]
      · rw [hrun, hrest.2.2.2.2.1, hstep.2.2.2.1]
      · rw [hrun, hrest.2.2.2.2.2, hstep.2.2.2.2.2]

theorem map_congr_mem (f g : Nat → Nat) : ∀ (l : List Nat),
    (∀ x ∈ l, f x = g x) → l.map f = l.map g := by
  intro l
  induction l with
  | nil => intro _; rfl
  | cons x xs ih =>
      intro h
      simp only [List.map_cons]
      rw [h x (by simp), ih (fun y hy => h y (by simp [hy]))]

theorem range_map_getD (bs : List Nat) : ∀ k, k ≤ bs.length →
    (List.range k).map (fun j => bs.getD j 0) = bs.take k := by
  induction bs with
  | nil =>
      intro k hk
      have hk0 : k = 0 := by simpa using hk
      subst hk0
      rfl
  | cons b rest ih =>
      intro k hk
      cases k with
      | zero => rfl
      | succ k' =>
          have hk' : k' ≤ rest.length := by simpa using hk
          rw [List.range_succ_eq_map, List.map_cons, List.map_map]
          have h1 : ((fun j => (b :: rest).getD j 0) ∘ Nat.succ)
              = fun j => rest.getD j 0 := by
            funext j
            simp [Function.comp]
          rw [h1, ih k' hk']
          simp [List.take_succ_cons]

/-- Effect of a host-bus address match arriving with an empty receive buffer
(the session-opening case). -/
theorem step_addressed0_facts (a st : Nat) (ua : Bool) (w : World)
    (hrx : w.app.twi0RxLen = 0) :
    (stepW (BusEvent.b0 (SlaveEvent.addressed a st), ua) w).app.twi0RxLen = 0 ∧
    (stepW (BusEvent.b0 (SlaveEvent.addressed a st), ua) w).app.twi0TxBuf
        = w.app.twi0TxBuf ∧
    (stepW (BusEvent.b0 (SlaveEvent.addressed a st), ua) w).app.twi0TxLen
        = w.app.twi0TxLen ∧
    (stepW (BusEvent.b0 (SlaveEvent.addressed a st), ua) w).app.twi0TxIdx
        = w.app.twi0TxIdx ∧
    (stepW (BusEvent.b0 (SlaveEvent.addressed a st), ua) w).regs.log0 = w.regs.log0 ∧
    (stepW (BusEvent.b0 (SlaveEvent.addressed a st), ua) w).eng0.live
        = decide (a = fromHost_addr) := by
  simp [stepW, twi0Step, twisCallback, eventState, eventStatus, twis_lastAddress, hrx]

/-- Claim C3: in a host-bus session that writes the bytes `bs` and then — by
repeated start, with no stop in between — re-addresses the slave and reads,
the `ADDRESSED` event copies the non-empty receive buffer into the transmit
buffer and resets the receive length to zero, and the subsequent `MREAD`
events emit the transmit-buffer bytes at an advancing cursor: the `k` bytes
offered to the master equal, in order, the first `k` bytes received. -/
theorem C3_compound_session_echoes_last_write (bs : List Nat) (k : Nat)
    (hne : bs ≠ []) (hlen : bs.length ≤ BUFF_SIZE) (hk : k ≤ bs.length) :
    validFromB initWorld (echoTrace bs k) = true ∧
    (runW initWorld (echoTrace bs k)).app.twi0RxLen = 0 ∧
    (runW initWorld (echoTrace bs k)).app.twi0TxLen = bs.length ∧
    (runW initWorld (echoTrace bs k)).app.twi0TxIdx = k ∧
    (runW initWorld (echoTrace bs k)).regs.log0 = bs.take k := by
  -- Phase 1: the session-opening address match on the power-on state.
  have h0 := step_addressed0_facts fromHost_addr 0 true initWorld rfl
  set w1 := stepW (BusEvent.b0 (SlaveEvent.addressed fromHost_addr 0), true) initWorld with hw1
  obtain ⟨h0rx, h0tb, h0tl, h0ti, h0log, h0lv⟩ := h0
  have h0live : w1.eng0.live = true := by rw [h0lv]; simp
  -- Phase 2: the master writes the payload `bs`.
  have hw := run_mwrites bs w1 (fun _ => h0live) (by rw [h0rx]; simpa using hlen)
  set w2 := runW w1 (mwTrace bs) with hw2
  have h2rxlen : w2.app.twi0RxLen = bs.length := by rw [hw.2.1, h0rx, Nat.zero_add]
  have h2rxne : w2.app.twi0RxLen ≠ 0 := by
    rw [h2rxlen]
    intro hcon
    exact hne (List.length_eq_zero.mp hcon)
  -- Phase 3: the repeated-start address match (echo setup).
  have ha := step_addressed_facts fromHost_addr 0 true w2 h2rxne
  set w3 := stepW (BusEvent.b0 (SlaveEvent.addressed fromHost_addr 0), true) w2 with hw3
  obtain ⟨hatb, hatl, hati, harx, halog, halv, hais⟩ := ha
  have h3live : w3.eng0.live = true := by rw [halv]; simp
  -- Phase 4: the master reads `k` bytes.
  have hr := run_mreads k w3 h3live (by rw [hati, hatl, h2rxlen]; omega)
  have hmid : runW initWorld
      ((BusEvent.b0 (SlaveEvent.addressed fromHost_addr 0), true) :: mwTrace bs) = w2 := by
    rw [hw2, hw1]; rfl
  have hsplit : runW initWorld (echoTrace bs k) = runW w3 (mrTrace k) := by
    simp only [echoTrace]
    rw [runW_append, hmid]
    rw [hw3]
    rfl
  refine ⟨?_, ?_, ?_, ?_, ?_⟩
  · -- validity of the whole compound session
    simp only [echoTrace]
    rw [validFromB_append, Bool.and_eq_true]
    refine ⟨?_, ?_⟩
    · simp only [validFromB, Bool.and_eq_true]
      refine ⟨by simp [validEvB, hwMatch0], ?_⟩
      rw [← hw1]
      exact hw.1
    · rw [hmid]
      simp only [validFromB, Bool.and_eq_true]
      refine ⟨by simp [validEvB, hwMatch0], ?_⟩
      rw [← hw3]
      exact hr.1
  · rw [hsplit, hr.2.2.2.2.2, harx]
  · rw [hsplit, hr.2.2.2.2.1, hatl, h2rxlen]
  · rw [hsplit, hr.2.2.1, hati, Nat.zero_add]
  · rw [hsplit, hr.2.1, halog, hw.2.2.2.2.2.2.2, h0log]
    have hmap : (List.range k).map (fun j => w3.app.twi0TxBuf (w3.app.twi0TxIdx + j))
        = (List.range k).map (fun j => bs.getD j 0) := by
      apply map_congr_mem
      intro x hx
      have hxk : x < k := List.mem_range.mp hx
      rw [hati, Nat.zero_add, hatb]
      unfold copyInto
      rw [if_pos (by rw [h2rxlen]; omega)]
      have hc := hw.2.2.2.1 x (by omega)
      rw [h0rx, Nat.zero_add] at hc
      exact hc
    rw [hmap, range_map_getD bs k hk]
    rfl

theorem C3_compound_session_echoes_last_write_witness :
    ([7, 9] : List Nat) ≠ [] ∧ ([7, 9] : List Nat).length ≤ BUFF_SIZE ∧
    2 ≤ ([7, 9] : List Nat).length ∧
    (validFromB initWorld (echoTrace [7, 9] 2) = true ∧
     (runW initWorld (echoTrace [7, 9] 2)).app.twi0RxLen = 0 ∧
     (runW initWorld (echoTrace [7, 9] 2)).app.twi0TxLen = 2 ∧
     (runW initWorld (echoTrace [7, 9] 2)).app.twi0TxIdx = 2 ∧
     (runW initWorld (echoTrace [7, 9] 2)).regs.log0 = [7, 9]) := by
  refine ⟨by decide, by decide, by decide, ?_⟩
  have h := C3_compound_session_echoes_last_write [7, 9] 2 (by decide) (by decide) (by decide)
  exact ⟨h.1, h.2.1, h.2.2.1, h.2.2.2.1, h.2.2.2.2⟩

/-! ### Main-loop polling (`main.c` `i2c_monitor` and the body of `main`'s
`if (uart1_availableForWrite())` block) -/

/-- Main-loop-visible state: the `main.c` globals (shared with the ISRs)
plus the two transceiver-routing output lines driven by
`ioWrite(MCU_IO_MGR_SETAPP4_UART/UPDI, ...)` (`true` = `LOGIC_LEVEL_HIGH` =
line active), the idle-blink period `blink_delay`, and the monitor's
`debug_print_done` stage counter. -/
structure LoopState where
  app : AppState
  uartLine : Bool
  updiLine : Bool
  blinkDelay : Nat
  debugPrintDone : Nat

/-- `main.c` `i2c_monitor()`: one poll of the incremental diagnostic
printer.  Only the stage counter and the print-slot cursors change; the
formatted `fprintf` output itself is not modeled. -/
def i2c_monitor (ls : LoopState) : LoopState :=
  let ls1 :=
    if ls.debugPrintDone = 0 then
      if ls.app.printOp1Idx < ls.app.printOp1Len then { ls with debugPrintDone := 1 }
      else ls -- early return: slave receive did not happen yet
    else if ls.debugPrintDone = 1 then { ls with debugPrintDone := 2 }
    else if ls.debugPrintDone = 2 then { ls with debugPrintDone := 3 }
    else if ls.debugPrintDone = 3 then
      if ls.app.printOp1Len ≤ ls.app.printOp1Idx then { ls with debugPrintDone := 4 }
      else if ls.app.printOp1rw = LAST_OP_W ∨ ls.app.printOp1rw = LAST_OP_R then
        { ls with app := { ls.app with printOp1Idx := ls.app.printOp1Idx + 1 } }
      else ls
    else if ls.debugPrintDone = 4 then
      if ls.app.printOp2Len ≤ ls.app.printOp2Idx then { ls with debugPrintDone := 5 }
      else if ls.app.printOp2rw = LAST_OP_W ∨ ls.app.printOp2rw = LAST_OP_R then
        { ls with app := { ls.app with printOp2Idx := ls.app.printOp2Idx + 1 } }
      else ls
    else ls
  if ls1.debugPrintDone = 5 then { ls1 with debugPrintDone := 0 } else ls1

/-- The body of `main()`'s `if (uart1_availableForWrite())` block, one loop
iteration: run the monitor, drop the (unused) `got_twi1` flag, then poll the
Relay Record — first byte `7` routes the multi-drop pair to the programming
interface (UART line low, UPDI line high) and sets the blink period to
`cnvrt_milli(BLINK_DELAY/4)`; any other first byte routes back to the UART
(UART high, UPDI low) with period `cnvrt_milli(BLINK_DELAY)`; the flag is
cleared after handling.  `cnv` stands for `cnvrt_milli` (defined in
`timers_bsd`, outside this repository's sources) and `uartAvail` for
`uart1_availableForWrite()`. -/
def loop_poll (uartAvail : Bool) (cnv : Nat → Nat) (ls : LoopState) : LoopState :=
  if uartAvail then
    let ls1 := i2c_monitor ls
    let ls2 :=
      if ls1.app.got_twi1 then { ls1 with app := { ls1.app with got_twi1 := false } } else ls1
    if ls2.app.got_twi0 then
      let ls3 :=
        if ls2.app.gotTwi0Buf 0 = 7 then
          { ls2 with uartLine := false, updiLine := true, blinkDelay := cnv (BLINK_DELAY / 4) }
        else
          { ls2 with uartLine := true, updiLine := false, blinkDelay := cnv BLINK_DELAY }
      { ls3 with app := { ls3.app with got_twi0 := false } }
    else ls2
  else ls

/-- `i2c_monitor` reads but never writes the Relay Record, the routing
lines, or the blink period. -/
theorem i2c_monitor_frame (ls : LoopState) :
    (i2c_monitor ls).app.got_twi0 = ls.app.got_twi0 ∧
    (i2c_monitor ls).app.gotTwi0Buf = ls.app.gotTwi0Buf ∧
    (i2c_monitor ls).app.got_twi1 = ls.app.got_twi1 ∧
    (i2c_monitor ls).uartLine = ls.uartLine ∧
    (i2c_monitor ls).updiLine = ls.updiLine ∧
    (i2c_monitor ls).blinkDelay = ls.blinkDelay := by
  have hfin : ∀ (x : LoopState),
      (if x.debugPrintDone = 5 then { x with debugPrintDone := 0 } else x).app = x.app ∧
      (if x.debugPrintDone = 5 then { x with debugPrintDone := 0 } else x).uartLine
          = x.uartLine ∧
      (if x.debugPrintDone = 5 then { x with debugPrintDone := 0 } else x).updiLine
          = x.updiLine ∧
      (if x.debugPrintDone = 5 then { x with debugPrintDone := 0 } else x).blinkDelay
          = x.blinkDelay := by
    intro x
    split_ifs <;> simp
  unfold i2c_monitor
  split_ifs <;> simp_all [hfin]

/-- A loop state with a pending Relay Record whose first byte is the
mode-switch command `7`, serial routing currently active. -/
def exLoop1 : LoopState :=
  ⟨{ initApp with got_twi0 := true, gotTwi0Buf := fun _ => 7, gotTwi0Len := 1 },
   true, false, 1000, 0⟩

/-- Counterexample to claim C1 as stated: a main-loop poll at which the
debug UART has no room for writing (`uart1_availableForWrite()` false) does
not enter the relay-handling block at all — the programming-interface line
stays inactive and the Relay Record's new-data flag stays set, even though
the relayed first byte is `7`. -/
theorem C1_next_poll_counterexample :
    exLoop1.app.got_twi0 = true ∧ exLoop1.app.gotTwi0Buf 0 = 7 ∧
    (loop_poll false (fun n => n) exLoop1).updiLine = false ∧
    (loop_poll false (fun n => n) exLoop1).uartLine = true ∧
    (loop_poll false (fun n => n) exLoop1).app.got_twi0 = true :=
  ⟨rfl, rfl, rfl, rfl, rfl⟩

/-- Claim C1 (amended): at the next main-loop iteration in which the debug
output stream has room (`uart1_availableForWrite()` true), a pending Relay
Record with first byte `7` drives the programming-interface (UPDI) line
active and the serial (UART) line inactive; any other first byte drives the
serial line active and the programming-interface line inactive; in both
cases the new-data flag is cleared. -/
theorem C1_relay_mode_switch (cnv : Nat → Nat) (ls : LoopState)
    (hgot : ls.app.got_twi0 = true) :
    (ls.app.gotTwi0Buf 0 = 7 →
      (loop_poll true cnv ls).updiLine = true ∧ (loop_poll true cnv ls).uartLine = false) ∧
    (ls.app.gotTwi0Buf 0 ≠ 7 →
      (loop_poll true cnv ls).uartLine = true ∧ (loop_poll true cnv ls).updiLine = false) ∧
    (loop_poll true cnv ls).app.got_twi0 = false := by
  have hm := i2c_monitor_frame ls
  by_cases hg1 : (i2c_monitor ls).app.got_twi1 <;>
  by_cases hb : ls.app.gotTwi0Buf 0 = 7 <;>
    simp [loop_poll, hg1, hb, hm.1, hm.2.1, hgot]

theorem C1_relay_mode_switch_witness :
    (loop_poll true (fun n => n) exLoop1).updiLine = true ∧
    (loop_poll true (fun n => n) exLoop1).uartLine = false ∧
    (loop_poll true (fun n => n) exLoop1).app.got_twi0 = false :=
  ⟨((C1_relay_mode_switch (fun n => n) exLoop1 rfl).1 rfl).1,
   ((C1_relay_mode_switch (fun n => n) exLoop1 rfl).1 rfl).2,
   (C1_relay_mode_switch (fun n => n) exLoop1 rfl).2.2⟩

/-- A loop state with a pending command-7 Relay Record and a stale blink
period, for exercising the blink-period branch. -/
def exLoop8 : LoopState :=
  ⟨{ initApp with got_twi0 := true, gotTwi0Buf := fun _ => 7, gotTwi0Len := 1 },
   true, false, 0, 0⟩

/-- Counterexample to claim C8 as stated: on the command byte `7`, `main()`
sets `blink_delay = cnvrt_milli(BLINK_DELAY/4)` — one quarter of the normal
period — not `cnvrt_milli(BLINK_DELAY/2)`.  With the tick conversion
instantiated to the identity, the resulting period is `250`, not
`BLINK_DELAY / 2 = 500`. -/
theorem C8_blink_half_counterexample :
    exLoop8.app.got_twi0 = true ∧ exLoop8.app.gotTwi0Buf 0 = 7 ∧
    (loop_poll true (fun n => n) exLoop8).blinkDelay = 250 ∧
    (loop_poll true (fun n => n) exLoop8).blinkDelay ≠ (fun n : Nat => n) (BLINK_DELAY / 2) := by
  refine ⟨rfl, rfl, rfl, by decide⟩

/-- Claim C8 (amended): when the main-loop poll handles a Relay Record whose
first byte is `7`, the idle-blink period is set to a **quarter** of the
normal value (`cnvrt_milli(BLINK_DELAY/4)`); any other first byte restores
the full `cnvrt_milli(BLINK_DELAY)`. -/
theorem C8_blink_quarter_on_updi (cnv : Nat → Nat) (ls : LoopState)
    (hgot : ls.app.got_twi0 = true) :
    (ls.app.gotTwi0Buf 0 = 7 →
      (loop_poll true cnv ls).blinkDelay = cnv (BLINK_DELAY / 4)) ∧
    (ls.app.gotTwi0Buf 0 ≠ 7 →
      (loop_poll true cnv ls).blinkDelay = cnv BLINK_DELAY) := by
  have hm := i2c_monitor_frame ls
  by_cases hg1 : (i2c_monitor ls).app.got_twi1 <;>
  by_cases hb : ls.app.gotTwi0Buf 0 = 7 <;>
    simp [loop_poll, hg1, hb, hm.1, hm.2.1, hgot]

theorem C8_blink_quarter_on_updi_witness :
    (loop_poll true (fun n => n) exLoop8).blinkDelay = (fun n : Nat => n) (BLINK_DELAY / 4) :=
  (C8_blink_quarter_on_updi (fun n => n) exLoop8 rfl).1 rfl
